import Mathlib

/-!
Shallow embedding of the `loro` latency-hiding gateway (Rust) and proofs
about its specification claims.

Conventions of the embedding:
* Rust `String`/`&str` become Lean `String`; `chars().count()` is
  `String.toList.length` (both count Unicode scalar values).
* `f64`/`f32` sample values are embedded as exact rationals `ℚ`; a
  non-finite `f64` (NaN or ±inf) is embedded as `none : Option ℚ`, so
  `is_finite` filtering becomes `Option.filterMap id`.
* Machine integers (`u32`, `usize`, `u64`, `i64`) are embedded as
  `Nat`/`Int`; no operation reasoned about here approaches wrap-around.
* I/O results (HTTP responses, upstream byte-stream fragments, clock
  readings, random indices) are explicit parameters, and fallible Rust
  code returning `Result`/`Option` becomes `Except`/`Option`.
-/

namespace Loro

/-! ## String helpers mirroring Rust std behaviour -/

/-- Bool test that `n` occurs as a contiguous sublist of `h`
(Rust `str::contains` for string patterns). -/
def infixCheck : List Char → List Char → Bool
  | [], n => n.isEmpty
  | c :: t, n => n.isPrefixOf (c :: t) || infixCheck t n

/-- Rust `str::contains(pat)` on strings. -/
def rustContains (h n : String) : Bool := infixCheck h.toList n.toList

/-- Split a character list at every newline (keeping empty pieces). -/
def splitNLAux : List Char → List Char → List (List Char)
  | [], acc => [acc.reverse]
  | c :: t, acc =>
    if c = '\n' then acc.reverse :: splitNLAux t [] else splitNLAux t (c :: acc)

def dropTrailingCR (l : List Char) : List Char :=
  match l.getLast? with
  | some c => if c = '\r' then l.dropLast else l
  | none => l

/-- Rust `str::lines()`: split at `\n`, treat a trailing line ending as
optional, and strip a `\r` that preceded a `\n`. -/
def rustLines (s : String) : List String :=
  let parts := splitNLAux s.toList []
  match parts.getLast? with
  | some [] => (parts.dropLast).map (fun l => String.mk (dropTrailingCR l))
  | _ =>
    ((parts.dropLast).map (fun l => String.mk (dropTrailingCR l))) ++
      [String.mk (parts.getLastD [])]

/-- Rust `str::trim()`. Lean's `Char.isWhitespace` covers space, tab,
CR and LF; Rust trims all Unicode whitespace, which coincides on every
input reasoned about here. -/
def rustTrim (s : String) : String :=
  String.mk (((s.toList.dropWhile Char.isWhitespace).reverse.dropWhile
    Char.isWhitespace).reverse)

/-- Rust `str::starts_with` for string patterns. -/
def strStartsWith (h p : String) : Bool := p.toList.isPrefixOf h.toList

/-- Drop the first `n` characters (all ASCII in every use here, so
character count and Rust's byte offsets agree). -/
def strDrop (s : String) (n : Nat) : String := String.mk (s.toList.drop n)

/-- Rust `str::len()` on valid UTF-8: the byte length of the encoding. -/
def charUtf8Size (c : Char) : Nat :=
  if c.toNat < 0x80 then 1
  else if c.toNat < 0x800 then 2
  else if c.toNat < 0x10000 then 3
  else 4

def utf8Len (s : String) : Nat := (s.toList.map charUtf8Size).sum

/-- Rust `str::to_lowercase`. Lean's `Char.toLower` performs the ASCII
case mapping; it agrees with Rust's full Unicode mapping on all ASCII and
CJK text, which covers every keyword and phrase the classifier uses. -/
def rust_to_lowercase (s : String) : String := String.mk (s.toList.map Char.toLower)

/-! ## A JSON value type with parser and printer, mirroring the
`serde_json` behaviour the service relies on. Numbers keep their lexeme:
no decoder in this program reads a numeric value out of upstream JSON. -/

inductive Json where
  | null
  | bool (b : Bool)
  | num (lexeme : String)
  | str (s : String)
  | arr (elems : List Json)
  | obj (fields : List (String × Json))
deriving Inhabited

/-- JSON insignificant whitespace. -/
def skipWs : List Char → List Char
  | c :: t => if c = ' ' || c = '\t' || c = '\n' || c = '\r' then skipWs t else c :: t
  | [] => []

def isHexDigit (c : Char) : Bool :=
  c.isDigit || ('a' ≤ c && c ≤ 'f') || ('A' ≤ c && c ≤ 'F')

def hexVal (c : Char) : Nat :=
  if c.isDigit then c.toNat - 48
  else if 'a' ≤ c && c ≤ 'f' then c.toNat - 87
  else c.toNat - 55

/-- Body of a JSON string literal, after the opening quote; `serde_json`
rejects unescaped control characters and unterminated strings.
(Surrogate-pair recombination for `\uXXXX` escapes is not modelled; no
input reasoned about contains such an escape.) -/
def parseStrBody : Nat → List Char → List Char → Except String (String × List Char)
  | 0, _, _ => .error "out of fuel"
  | Nat.succ fuel, acc, cs =>
    match cs with
    | [] => .error "unterminated string"
    | c :: t =>
      if c = '"' then .ok (String.mk acc.reverse, t)
      else if c = '\\' then
        match t with
        | [] => .error "unterminated escape"
        | e :: t2 =>
          if e = '"' then parseStrBody fuel ('"' :: acc) t2
          else if e = '\\' then parseStrBody fuel ('\\' :: acc) t2
          else if e = '/' then parseStrBody fuel ('/' :: acc) t2
          else if e = 'b' then parseStrBody fuel (Char.ofNat 8 :: acc) t2
          else if e = 'f' then parseStrBody fuel (Char.ofNat 12 :: acc) t2
          else if e = 'n' then parseStrBody fuel ('\n' :: acc) t2
          else if e = 'r' then parseStrBody fuel ('\r' :: acc) t2
          else if e = 't' then parseStrBody fuel ('\t' :: acc) t2
          else if e = 'u' then
            match t2 with
            | h1 :: h2 :: h3 :: h4 :: t3 =>
              if isHexDigit h1 && isHexDigit h2 && isHexDigit h3 && isHexDigit h4 then
                let v := ((hexVal h1 * 16 + hexVal h2) * 16 + hexVal h3) * 16 + hexVal h4
                parseStrBody fuel (Char.ofNat v :: acc) t3
              else .error "invalid unicode escape"
            | _ => .error "invalid unicode escape"
          else .error "invalid escape"
      else if c.toNat < 32 then .error "control character in string"
      else parseStrBody fuel (c :: acc) t

/-- JSON number lexeme: `-? int frac? exp?`. Returns the lexeme and rest. -/
def parseNum (cs : List Char) : Except String (Json × List Char) :=
  let (sign, r1) := match cs with
    | '-' :: t => (['-'], t)
    | _ => (([] : List Char), cs)
  let intPart := r1.takeWhile Char.isDigit
  let r2 := r1.drop intPart.length
  if intPart.isEmpty then .error "invalid number"
  else
    let (fracPart, r3) := match r2 with
      | '.' :: t =>
        let ds := t.takeWhile Char.isDigit
        if ds.isEmpty then (none, r2) else (some ('.' :: ds), t.drop ds.length)
      | _ => (none, r2)
    if r2 ≠ r3 ∨ fracPart.isSome then
      match fracPart with
      | none => .error "invalid number"
      | some fp => parseNumExp (sign ++ intPart ++ fp) r3
    else parseNumExp (sign ++ intPart) r3
where
  parseNumExp (lex : List Char) (cs : List Char) : Except String (Json × List Char) :=
    match cs with
    | e :: t =>
      if e = 'e' || e = 'E' then
        let (sgn, t2) := match t with
          | '+' :: u => (['+'], u)
          | '-' :: u => (['-'], u)
          | _ => (([] : List Char), t)
        let ds := t2.takeWhile Char.isDigit
        if ds.isEmpty then .error "invalid number"
        else .ok (.num (String.mk (lex ++ e :: sgn ++ ds)), t2.drop ds.length)
      else .ok (.num (String.mk lex), cs)
    | [] => .ok (.num (String.mk lex), [])

def lbrace : Char := Char.ofNat 123
def rbrace : Char := Char.ofNat 125

mutual

/-- One JSON value (fuel-indexed; fuel bounds nesting recursion). -/
def parseVal : Nat → List Char → Except String (Json × List Char)
  | 0, _ => .error "out of fuel"
  | Nat.succ fuel, cs =>
    match skipWs cs with
    | [] => .error "unexpected end of input"
    | c :: t =>
      if c = 'n' then
        if ['u', 'l', 'l'].isPrefixOf t then .ok (.null, t.drop 3) else .error "invalid literal"
      else if c = 't' then
        if ['r', 'u', 'e'].isPrefixOf t then .ok (.bool true, t.drop 3) else .error "invalid literal"
      else if c = 'f' then
        if ['a', 'l', 's', 'e'].isPrefixOf t then .ok (.bool false, t.drop 4)
        else .error "invalid literal"
      else if c = '"' then
        match parseStrBody (t.length + 1) [] t with
        | .ok (s, r) => .ok (.str s, r)
        | .error e => .error e
      else if c = '[' then
        match skipWs t with
        | ']' :: r => .ok (.arr [], r)
        | r => parseElems fuel r []
      else if c = lbrace then
        match skipWs t with
        | d :: r => if d = rbrace then .ok (.obj [], r) else parseMembers fuel (d :: r) []
        | [] => .error "unexpected end of input"
      else if c = '-' || c.isDigit then parseNum (c :: t)
      else .error "unexpected character"

/-- Comma-separated array elements, up to the closing bracket. -/
def parseElems : Nat → List Char → List Json → Except String (Json × List Char)
  | 0, _, _ => .error "out of fuel"
  | Nat.succ fuel, cs, acc =>
    match parseVal fuel cs with
    | .error e => .error e
    | .ok (v, r) =>
      match skipWs r with
      | ',' :: r2 => parseElems fuel r2 (acc ++ [v])
      | ']' :: r2 => .ok (.arr (acc ++ [v]), r2)
      | _ => .error "expected comma or end of array"

/-- Comma-separated object members, up to the closing brace. -/
def parseMembers : Nat → List Char → List (String × Json) →
    Except String (Json × List Char)
  | 0, _, _ => .error "out of fuel"
  | Nat.succ fuel, cs, acc =>
    match skipWs cs with
    | '"' :: t =>
      match parseStrBody (t.length + 1) [] t with
      | .error e => .error e
      | .ok (key, r) =>
        match skipWs r with
        | ':' :: r2 =>
          match parseVal fuel r2 with
          | .error e => .error e
          | .ok (v, r3) =>
            match skipWs r3 with
            | ',' :: r4 => parseMembers fuel r4 (acc ++ [(key, v)])
            | d :: r4 =>
              if d = rbrace then .ok (.obj (acc ++ [(key, v)]), r4)
              else .error "expected comma or end of object"
            | [] => .error "unexpected end of input"
        | _ => .error "expected colon"
    | _ => .error "expected string key"

end

/-- `serde_json::from_str` as far as producing a `Json` value: parse one
value and reject trailing non-whitespace. -/
def json_from_str (s : String) : Except String Json :=
  match parseVal (4 * s.toList.length + 4) s.toList with
  | .error e => .error e
  | .ok (v, rest) =>
    if (skipWs rest).isEmpty then .ok v else .error "trailing characters"

/-! ### JSON printing (`serde_json::to_string` for the structs the
service serializes: compact separators, struct fields in declaration
order, `Option` fields skipped when `None`). -/

def hexDigitChar (n : Nat) : Char :=
  if n < 10 then Char.ofNat (48 + n) else Char.ofNat (87 + n)

/-- `serde_json` string escaping: quote, backslash, and control
characters (short forms for `\b \t \n \f \r`, `\u00XX` otherwise);
non-ASCII text is emitted raw. -/
def escChar (c : Char) : String :=
  if c = '"' then "\\\""
  else if c = '\\' then "\\\\"
  else if c.toNat = 8 then "\\b"
  else if c.toNat = 9 then "\\t"
  else if c.toNat = 10 then "\\n"
  else if c.toNat = 12 then "\\f"
  else if c.toNat = 13 then "\\r"
  else if c.toNat < 32 then
    "\\u00" ++ String.mk [hexDigitChar (c.toNat / 16), hexDigitChar (c.toNat % 16)]
  else String.singleton c

def jsonEscapeString (s : String) : String :=
  "\"" ++ String.join (s.toList.map escChar) ++ "\""

example : json_from_str "\x7b\"a\":[1,true,null,\"x\"]\x7d" =
    .ok (.obj [("a", .arr [.num "1", .bool true, .null, .str "x"])]) := by rfl

example : (json_from_str "\x7bmalformed").isOk = false := by rfl

example : jsonEscapeString "a\"b\\c" = "\"a\\\"b\\\\c\"" := by rfl

/-! ## Data model (`src/models.rs`) -/

/-- `models.rs`: `Message { role, content }`. -/
structure Message where
  role : String
  content : String
deriving Repr, DecidableEq

/-- `models.rs`: `Stop` — a stop string or a list of them. -/
inductive Stop where
  | Single (s : String)
  | Multiple (l : List String)
deriving Repr, DecidableEq

/-- `models.rs`: `ChatCompletionRequest`. `temperature : f32` is embedded
as an exact rational; `max_tokens : u32` as `Nat`. -/
structure ChatCompletionRequest where
  model : String
  messages : List Message
  max_tokens : Option Nat
  temperature : ℚ
  stream : Bool
  stop : Option Stop
  disable_quick_response : Bool
deriving Repr, DecidableEq

/-- `models.rs`: `MessageDelta` (both fields skipped when `None`). -/
structure MessageDelta where
  role : Option String
  content : Option String
deriving Repr, DecidableEq

/-- `models.rs`: `ChoiceDelta`. -/
structure ChoiceDelta where
  index : Nat
  delta : MessageDelta
  finish_reason : Option String
deriving Repr, DecidableEq

/-- `models.rs`: `ChatCompletionChunk` (`created : i64` as `Int`). -/
structure ChatCompletionChunk where
  id : String
  object : String
  created : Int
  model : String
  choices : List ChoiceDelta
deriving Repr, DecidableEq

/-- `models.rs`: `OpenAIMessage` — optional role and content. -/
structure OpenAIMessage where
  role : Option String
  content : Option String
deriving Repr, DecidableEq

/-- `models.rs`: `OpenAIChoice`. -/
structure OpenAIChoice where
  message : Option OpenAIMessage
  delta : Option OpenAIMessage
  finish_reason : Option String
deriving Repr, DecidableEq

/-- `models.rs`: `OpenAIResponse`. -/
structure OpenAIResponse where
  choices : List OpenAIChoice
deriving Repr, DecidableEq

/-! ### serde `Deserialize` for the response structs: a struct is read
from a JSON object; unknown fields are ignored; an `Option` field is
`None` when missing or `null`; a missing non-`Option` field is an error. -/

/-- First binding of a field name in a JSON object. -/
def Json.getField : Json → String → Option Json
  | .obj fields, key => (fields.find? (fun f => f.1 = key)).map (·.2)
  | _, _ => none

def decodeString : Json → Except String String
  | .str s => .ok s
  | _ => .error "expected a string"

/-- `Option<String>` field: missing or `null` is `None`. -/
def decodeOptStringField (j : Json) (key : String) : Except String (Option String) :=
  match j.getField key with
  | none => .ok none
  | some .null => .ok none
  | some v => (decodeString v).map some

def decodeOpenAIMessage (j : Json) : Except String OpenAIMessage :=
  match j with
  | .obj _ =>
    match decodeOptStringField j "role", decodeOptStringField j "content" with
    | .ok r, .ok c => .ok ⟨r, c⟩
    | .error e, _ => .error e
    | _, .error e => .error e
  | _ => .error "expected an object"

/-- `Option<OpenAIMessage>` field: missing or `null` is `None`. -/
def decodeOptMessageField (j : Json) (key : String) :
    Except String (Option OpenAIMessage) :=
  match j.getField key with
  | none => .ok none
  | some .null => .ok none
  | some v => (decodeOpenAIMessage v).map some

def decodeOpenAIChoice (j : Json) : Except String OpenAIChoice :=
  match j with
  | .obj _ =>
    match decodeOptMessageField j "message", decodeOptMessageField j "delta",
        decodeOptStringField j "finish_reason" with
    | .ok m, .ok d, .ok f => .ok ⟨m, d, f⟩
    | .error e, _, _ => .error e
    | _, .error e, _ => .error e
    | _, _, .error e => .error e
  | _ => .error "expected an object"

def decodeOpenAIResponse (j : Json) : Except String OpenAIResponse :=
  match j.getField "choices" with
  | some (.arr elems) =>
    (elems.mapM decodeOpenAIChoice).map OpenAIResponse.mk
  | some _ => .error "choices: expected an array"
  | none => .error "missing field choices"

/-- `serde_json::from_str::<OpenAIResponse>`. -/
def openai_response_from_str (s : String) : Except String OpenAIResponse :=
  match json_from_str s with
  | .error e => .error e
  | .ok j => decodeOpenAIResponse j

/-- Modelled from the spec: `OllamaResponse` is referenced from
`service.rs` but its declaration is not among the sources; per the spec
a local-NDJSON frame is "a JSON object per line" with a `message.content`
field and a `done` flag, so the struct carries a required `message`
object whose `content` string is required. -/
structure OllamaResponse where
  message : OpenAIMessage

/-- Modelled from the spec: deserialization for `OllamaResponse`
(required `message` object with a required string `content`). -/
def ollama_response_from_str (s : String) : Except String OllamaResponse :=
  match json_from_str s with
  | .error e => .error e
  | .ok j =>
    match j.getField "message" with
    | some m =>
      match m.getField "content" with
      | some (.str c) => .ok ⟨⟨none, some c⟩⟩
      | _ => .error "missing field content"
    | none => .error "missing field message"

/-! ### serde `Serialize` output for `ChatCompletionChunk` -/

def delta_to_string (d : MessageDelta) : String :=
  let fields :=
    (match d.role with
      | some r => ["\"role\":" ++ jsonEscapeString r]
      | none => []) ++
    (match d.content with
      | some c => ["\"content\":" ++ jsonEscapeString c]
      | none => [])
  "\x7b" ++ String.intercalate "," fields ++ "\x7d"

def choice_to_string (c : ChoiceDelta) : String :=
  "\x7b\"index\":" ++ toString c.index ++ ",\"delta\":" ++ delta_to_string c.delta ++
    (match c.finish_reason with
      | some f => ",\"finish_reason\":" ++ jsonEscapeString f
      | none => "") ++ "\x7d"

/-- `serde_json::to_string(&chunk)` — total in this embedding (the Rust
serializer cannot fail on these value types either). -/
def chunk_to_string (ch : ChatCompletionChunk) : String :=
  "\x7b\"id\":" ++ jsonEscapeString ch.id ++ ",\"object\":" ++ jsonEscapeString ch.object ++
    ",\"created\":" ++ toString ch.created ++ ",\"model\":" ++ jsonEscapeString ch.model ++
    ",\"choices\":[" ++ String.intercalate "," (ch.choices.map choice_to_string) ++ "]\x7d"

example : chunk_to_string ⟨"chatcmpl-r", "chat.completion.chunk", 0, "m",
    [⟨0, ⟨some "assistant", some "hi"⟩, none⟩]⟩ =
    "\x7b\"id\":\"chatcmpl-r\",\"object\":\"chat.completion.chunk\",\"created\":0,\"model\":\"m\",\"choices\":[\x7b\"index\":0,\"delta\":\x7b\"role\":\"assistant\",\"content\":\"hi\"\x7d\x7d]\x7d" := by rfl

example : openai_response_from_str "\x7b\"choices\":[\x7b\"delta\":\x7b\"content\":\"Hello\"\x7d\x7d]\x7d" =
    .ok ⟨[⟨none, some ⟨none, some "Hello"⟩, none⟩]⟩ := by rfl

example : (openai_response_from_str "\x7b\"choices\":[\x7b\"delta\":\x7b\"content\":\"Hel").isOk
    = false := by rfl

/-! ## Quick-response classification (`src/models.rs` 172-229) -/

inductive RequestCategory where
  | Greeting
  | Question
  | Request
  | Thinking
deriving Repr, DecidableEq

/-- `RequestCategory::get_responses`. -/
def RequestCategory.get_responses : RequestCategory → List String
  | .Greeting => ["你好！", "嗨！", "您好，", "我在，"]
  | .Question => ["好的，", "这个，", "关于，", "我来，"]
  | .Request => ["好的，", "明白，", "我来，", "让我，"]
  | .Thinking => ["嗯，", "我觉得，", "让我，", "根据，"]

/-- `Message::categorize`: ordered substring matching over the
lower-cased content. -/
def Message.categorize (m : Message) : RequestCategory :=
  let content := rust_to_lowercase m.content
  if rustContains content "你好" || rustContains content "hello" ||
      rustContains content "hi" || rustContains content "嗨" then
    .Greeting
  else if rustContains content "什么" || rustContains content "如何" ||
      rustContains content "怎么" || rustContains content "为什么" ||
      rustContains content "why" || rustContains content "how" ||
      rustContains content "what" || rustContains content "?" ||
      rustContains content "？" then
    .Question
  else if rustContains content "请" || rustContains content "帮我" ||
      rustContains content "能不能" || rustContains content "可以" ||
      rustContains content "help" || rustContains content "please" then
    .Request
  else
    .Thinking

/-! ## Service logic (`src/service.rs`) -/

/-- `LoroService::is_appropriate_quick_response` (service.rs 385-396). -/
def is_appropriate_quick_response (text : String) : Bool :=
  if text.toList.length > 6 then false
  else
    let complex_punctuation_count :=
      (text.toList.filter (fun c => "。！？，".toList.contains c)).length
    if complex_punctuation_count > 1 then false
    else true

/-- `LoroService::get_quick_response` (service.rs 202-231). The small
model call is I/O, so its outcome is the `small_model_result` parameter;
`SliceRandom::choose` picks a uniformly random in-bounds index, modelled
by an arbitrary `rng` reduced modulo the phrase-set length. -/
def get_quick_response (messages : List Message)
    (small_model_result : Except String String) (rng : Nat) : Except String String :=
  if messages.isEmpty then .error "Messages array cannot be empty"
  else
    let accepted :=
      match small_model_result with
      | .ok response =>
        if response.toList.length ≤ 6 && is_appropriate_quick_response response then
          some response
        else none
      | .error _ => none
    match accepted with
    | some response => .ok response
    | none =>
      let last_message := messages.getLastD ⟨"", ""⟩
      let category := last_message.categorize
      let responses := category.get_responses
      .ok (responses.getD (rng % responses.length) "")

/-- `LoroService::process_sse_line_static` (service.rs 636-736). The
`created` timestamp read from the clock is a parameter. -/
def process_sse_line_static (line request_id model_name : String) (created : Int) :
    Except String (Option String) :=
  if strStartsWith line "data: " then
    let json_data := strDrop line 6
    if rustTrim json_data = "[DONE]" then .ok none
    else
      let json_data := rustTrim json_data
      if json_data = "" then .ok none
      else
        match openai_response_from_str json_data with
        | .ok openai_chunk =>
          match openai_chunk.choices.head? with
          | some choice =>
            let crf : Option String × Option String × Option String :=
              match choice.delta with
              | some delta => (delta.content, delta.role, choice.finish_reason)
              | none =>
                match choice.message with
                | some message => (message.content, message.role, choice.finish_reason)
                | none => (none, none, choice.finish_reason)
            let content := crf.1
            let role := crf.2.1
            let finish_reason := crf.2.2
            match content with
            | some c =>
              if c ≠ "" then
                let chunk : ChatCompletionChunk :=
                  ⟨"chatcmpl-" ++ request_id, "chat.completion.chunk", created, model_name,
                    [⟨0, ⟨role, some c⟩, finish_reason⟩]⟩
                let json_str := chunk_to_string chunk
                if utf8Len json_str > 1024 * 1024 then .ok none
                else .ok (some json_str)
              else .ok none
            | none =>
              if finish_reason.isSome then
                let chunk : ChatCompletionChunk :=
                  ⟨"chatcmpl-" ++ request_id, "chat.completion.chunk", created, model_name,
                    [⟨0, ⟨none, none⟩, finish_reason⟩]⟩
                let json_str := chunk_to_string chunk
                if utf8Len json_str > 1024 * 1024 then .ok none
                else .ok (some json_str)
              else .ok none
          | none => .ok none
        | .error _ => .ok none
  else .ok none

/-- `LoroService::process_ollama_line_static` (service.rs 610-635). -/
def process_ollama_line_static (line request_id model_name : String) (created : Int) :
    Except String (Option String) :=
  match ollama_response_from_str line with
  | .error e => .error e
  | .ok resp =>
    let content := (resp.message.content).getD ""
    if content = "" then .ok none
    else
      let chunk : ChatCompletionChunk :=
        ⟨"chatcmpl-" ++ request_id, "chat.completion.chunk", created, model_name,
          [⟨0, ⟨none, some content⟩, none⟩]⟩
      let json_str := chunk_to_string chunk
      if utf8Len json_str > 1024 * 1024 then .ok none
      else .ok (some json_str)

/-- One line of the buffered decode loop (service.rs 537-567): state is
`(results so far, remaining_data)`; a decodable frame appends a result,
a non-frame or failing line overwrites `remaining_data`. -/
def sse_line_action (is_ollama : Bool) (request_id model_name : String) (created : Int)
    (st : List (Except String String) × String) (rawLine : String) :
    List (Except String String) × String :=
  let line := rustTrim rawLine
  if line = "" then st
  else if is_ollama then
    match process_ollama_line_static line request_id model_name created with
    | .ok (some chunk) => (st.1 ++ [.ok chunk], st.2)
    | .ok none => st
    | .error _ => (st.1, line)
  else
    if strStartsWith line "data: " || line = "[DONE]" then
      match process_sse_line_static line request_id model_name created with
      | .ok (some chunk) => (st.1 ++ [.ok chunk], st.2)
      | .ok none => st
      | .error _ => (st.1, line)
    else (st.1, line)

structure SseStepOut where
  results : List (Except String String)
  buffer : String
deriving Repr

/-- One delivery of the upstream byte stream through the decoding closure
of `get_large_model_stream` (service.rs 509-605): on data, append to the
buffer, process its lines, and keep the surviving `remaining_data` as the
new buffer; on a transport error, emit one synthetic apology chunk and
leave the buffer untouched. -/
def sse_step (is_ollama : Bool) (request_id model_name : String) (created : Int)
    (buffer : String) (chunk_result : Except String String) : SseStepOut :=
  match chunk_result with
  | .ok bytes =>
    let buf := buffer ++ bytes
    let st := (rustLines buf).foldl
      (sse_line_action is_ollama request_id model_name created) ([], "")
    ⟨st.1, st.2⟩
  | .error _ =>
    let error_chunk : ChatCompletionChunk :=
      ⟨"chatcmpl-" ++ request_id, "chat.completion.chunk", created, model_name,
        [⟨0, ⟨none, some " [抱歉，出现了问题]"⟩, some "stop"⟩]⟩
    let json_str := chunk_to_string error_chunk
    if utf8Len json_str > 1024 * 1024 then ⟨[.error "Error chunk too large"], buffer⟩
    else ⟨[.ok json_str], buffer⟩

/-- The decoded stream over a whole sequence of upstream deliveries:
thread the buffer through `sse_step` and concatenate the emitted items. -/
def sse_run (is_ollama : Bool) (request_id model_name : String) (created : Int)
    (fragments : List (Except String String)) : List (Except String String) × String :=
  fragments.foldl
    (fun st frag =>
      let out := sse_step is_ollama request_id model_name created st.2 frag
      (st.1 ++ out.results, out.buffer))
    ([], "")

/-- The synthetic first chunk of the quick path (service.rs 111-124). -/
def first_chunk_of (request_id : String) (created : Int) (model_name quick_response : String) :
    ChatCompletionChunk :=
  ⟨"chatcmpl-" ++ request_id, "chat.completion.chunk", created, model_name,
    [⟨0, ⟨some "assistant", some quick_response⟩, none⟩]⟩

/-- `LoroService::stream_quick_response` (service.rs 89-161) as the item
sequence it emits: the serialized synthetic quick chunk, then the decoded
large-model items (`large_items`, produced by `get_large_model_stream`),
then the `[DONE]` sentinel appended by the end event. Timing capture and
stats recording are side effects with no influence on the sequence. -/
def stream_quick_response (request : ChatCompletionRequest) (request_id : String)
    (created : Int) (small_model_result : Except String String) (rng : Nat)
    (large_items : List (Except String String)) :
    Except String (List (Except String String)) :=
  match get_quick_response request.messages small_model_result rng with
  | .error e => .error e
  | .ok quick_response =>
    let first_chunk := first_chunk_of request_id created request.model quick_response
    let first_chunk_data := chunk_to_string first_chunk
    if utf8Len first_chunk_data > 1024 * 1024 then
      .error "Response chunk too large"
    else .ok ([.ok first_chunk_data] ++ large_items ++ [.ok "[DONE]"])

/-- `execute_with_retry` (service.rs 769-814), with the async operation
embedded as a function of the 0-based invocation index. The `while
attempt <= max_retries` loop is unrolled as recursion on the number of
retries still allowed after the current attempt; the second component is
the number of invocations performed. -/
def retry_go {ε α : Type} (op : Nat → Except ε α) : Nat → Nat → Except ε α × Nat
  | 0, calls => (op calls, calls + 1)
  | Nat.succ n, calls =>
    match op calls with
    | .ok a => (.ok a, calls + 1)
    | .error _ => retry_go op n (calls + 1)

def execute_with_retry {ε α : Type} (op : Nat → Except ε α) (max_retries : Nat) :
    Except ε α × Nat :=
  retry_go op max_retries 0

/-! ## Request validation and the HTTP gate (`src/models.rs` 27-61,
`src/main.rs` 81-153) -/

/-- The indexed per-message loop of `ChatCompletionRequest::validate`. -/
def validate_messages : Nat → List Message → Except String Unit
  | _, [] => .ok ()
  | i, message :: rest =>
    if rustTrim message.role = "" then
      .error ("Message " ++ toString i ++ " role cannot be empty")
    else if rustTrim message.content = "" then
      .error ("Message " ++ toString i ++ " content cannot be empty")
    else if !(["system", "user", "assistant"].contains message.role) then
      .error ("Message " ++ toString i ++ " has invalid role: " ++ message.role)
    else validate_messages (i + 1) rest

/-- `ChatCompletionRequest::validate`. -/
def ChatCompletionRequest.validate (r : ChatCompletionRequest) : Except String Unit :=
  if rustTrim r.model = "" then .error "Model name cannot be empty"
  else if r.messages.isEmpty then .error "Messages array cannot be empty"
  else
    match validate_messages 0 r.messages with
    | .error e => .error e
    | .ok _ =>
      let mtokens : Except String Unit :=
        match r.max_tokens with
        | some max_tokens =>
          if max_tokens = 0 || max_tokens > 8192 then
            .error "max_tokens must be between 1 and 8192"
          else .ok ()
        | none => .ok ()
      match mtokens with
      | .error e => .error e
      | .ok _ =>
        if r.temperature < 0 ∨ r.temperature > 2 then
          .error "Temperature must be between 0.0 and 2.0"
        else .ok ()

inductive GateOutcome where
  | rejected (status : Nat) (err_type err_code : String)
  | forwarded
deriving Repr, DecidableEq

/-- The validation gate of the `chat_completions` handler (main.rs
86-100): an invalid request is answered with a 400 structured error and
`service.chat_completion` — the only path to any upstream call — is
never reached; a valid one is forwarded to it. -/
def chat_completions_gate (r : ChatCompletionRequest) : GateOutcome :=
  match r.validate with
  | .error _ => .rejected 400 "invalid_request_error" "validation_failed"
  | .ok _ => .forwarded

/-! ## Latency statistics (`src/stats.rs`) -/

/-! ### Binary64 arithmetic for the statistics average

`calculate_stats` computes `avg = sum::<f64>() / len as f64` in `f64`,
and that rounding is observable (the rounded average can leave
`[min, max]`), so the average is modelled with IEEE-754 binary64
round-to-nearest, ties-to-even arithmetic over exact rationals. Only the
normal range is modelled (no subnormal underflow, no overflow to
infinity, no NaN): every value reasoned about here lies well inside it. -/

/-- The exact rational sum, written in numerator/denominator form so it
evaluates by kernel reduction (`Rat.add` is `@[irreducible]`); proved
equal to `+` below. -/
def qAdd (x y : ℚ) : ℚ := mkRat (x.num * y.den + y.num * x.den) (x.den * y.den)

/-- The exact rational quotient in numerator/denominator form; proved
equal to `/` below. -/
def qDiv (x y : ℚ) : ℚ := Rat.divInt (x.num * y.den) (x.den * y.num)

theorem qAdd_eq_add (x y : ℚ) : qAdd x y = x + y := by
  unfold qAdd
  rw [Rat.add_def']

theorem qDiv_eq_div (x y : ℚ) : qDiv x y = x / y := by
  unfold qDiv
  rw [Rat.div_def']

/-- Scale the positive rational `n / d` by powers of two into
`[2^52, 2^53)`: returns `(n', d', e)` with `n' / d' = (n / d) * 2^e`.
The fuel covers the full binary64 exponent range. -/
def f64scale : Nat → Nat → Nat → Nat × Nat × Int
  | 0, n, d => (n, d, 0)
  | fuel + 1, n, d =>
    if n < 4503599627370496 * d then
      let p := f64scale fuel (2 * n) d
      (p.1, p.2.1, p.2.2 + 1)
    else if 9007199254740992 * d ≤ n then
      let p := f64scale fuel n (2 * d)
      (p.1, p.2.1, p.2.2 - 1)
    else (n, d, 0)

/-- Round `n / d` to the nearest integer, ties to the even neighbour. -/
def roundHalfEven (n d : Nat) : Nat :=
  if 2 * (n % d) < d then n / d
  else if d < 2 * (n % d) then n / d + 1
  else if n / d % 2 = 0 then n / d else n / d + 1

def f64roundPos (q : ℚ) : ℚ :=
  let p := f64scale 4400 q.num.toNat q.den
  let m := roundHalfEven p.1 p.2.1
  if 0 ≤ p.2.2 then mkRat m (2 ^ p.2.2.toNat)
  else mkRat (m * 2 ^ (-p.2.2).toNat) 1

/-- Binary64 round-to-nearest, ties-to-even of an exact rational
(normal range; see the section comment). -/
def f64round (q : ℚ) : ℚ :=
  if q.num = 0 then 0
  else if q.num < 0 then -(f64roundPos (-q)) else f64roundPos q

/-- IEEE-754 `f64` addition: the exact sum, correctly rounded. -/
def f64add (x y : ℚ) : ℚ := f64round (qAdd x y)

/-- IEEE-754 `f64` division: the exact quotient, correctly rounded. -/
def f64div (x y : ℚ) : ℚ := f64round (qDiv x y)

/-- Rust `iter().sum::<f64>()`: a left fold of `f64` additions from 0. -/
def f64sum (l : List ℚ) : ℚ := l.foldl f64add 0

example : f64round (mkRat 1 10) = mkRat 3602879701896397 36028797018963968 := by decide

structure LatencyStats where
  avg : ℚ
  min : ℚ
  max : ℚ
  p50 : ℚ
  p95 : ℚ
deriving Repr, DecidableEq

/-- `calculate_stats` (stats.rs 151-214). A sample is `some q` when the
`f64` is finite (a binary64-representable rational), `none` otherwise,
so `is_finite` filtering is `filterMap id`; the `partial_cmp` sort ties
for NaN never arise after filtering. The average is computed with the
binary64 arithmetic the source uses (`sum::<f64>() / len as f64`, the
sum folded over the sorted data); min/max/p50/p95 select existing
elements, with the index products `(n-1)*0.5` and `(n-1)*0.95` taken in
exact arithmetic, as the spec and the claim state them. -/
def calculate_stats (data : List (Option ℚ)) : LatencyStats :=
  if data.isEmpty then ⟨0, 0, 0, 0, 0⟩
  else
    let filtered_data := data.filterMap id
    if filtered_data.isEmpty then ⟨0, 0, 0, 0, 0⟩
    else
      let sorted_data := List.insertionSort (· ≤ ·) filtered_data
      let n := sorted_data.length
      let avg := f64div (f64sum sorted_data) (f64round (n : ℚ))
      let mn := sorted_data.getD 0 0
      let mx := sorted_data.getD (n - 1) 0
      let p50_idx := if n = 1 then 0 else (n - 1) / 2
      let p95_idx := if n = 1 then 0 else (n - 1) * 19 / 20
      ⟨avg, mn, mx, sorted_data.getD p50_idx 0, sorted_data.getD p95_idx 0⟩

/-- `StatsCollector` state (stats.rs 13-33): the lock-protected vectors
and counter, with `max_entries` carried in the state. -/
structure StatsCollector where
  first_response_times : List ℚ
  total_response_times : List ℚ
  quick_response_times : List ℚ
  large_model_times : List ℚ
  request_count : Nat
  max_entries : Nat
deriving Repr, DecidableEq

/-- `StatsCollector::add_request` (stats.rs 35-90). `Vec::drain(0..k)`
is `List.drop k`; the in-bounds side condition `k ≤ len` the Rust drain
needs is proved for the drained sequences below. -/
def StatsCollector.add_request (s : StatsCollector) (first_response_time total_time : ℚ)
    (quick_time large_time : Option ℚ) : StatsCollector :=
  let first_times := s.first_response_times ++ [first_response_time]
  let total_times := s.total_response_times ++ [total_time]
  let quick_times :=
    match quick_time with
    | some q => s.quick_response_times ++ [q]
    | none => s.quick_response_times
  let large_times :=
    match large_time with
    | some l => s.large_model_times ++ [l]
    | none => s.large_model_times
  let count := s.request_count + 1
  if first_times.length > s.max_entries then
    let keep_count := s.max_entries * 3 / 4
    let remove_count := first_times.length - keep_count
    { first_response_times := first_times.drop remove_count
      total_response_times := total_times.drop remove_count
      quick_response_times :=
        if quick_times.length > remove_count then quick_times.drop remove_count
        else quick_times
      large_model_times :=
        if large_times.length > remove_count then large_times.drop remove_count
        else large_times
      request_count := count
      max_entries := s.max_entries }
  else
    { first_response_times := first_times
      total_response_times := total_times
      quick_response_times := quick_times
      large_model_times := large_times
      request_count := count
      max_entries := s.max_entries }

/-- The synthetic apology chunk built in the transport-error arm of the
decode closure (service.rs 576-589). -/
def apology_chunk (request_id model_name : String) (created : Int) : ChatCompletionChunk :=
  ⟨"chatcmpl-" ++ request_id, "chat.completion.chunk", created, model_name,
    [⟨0, ⟨none, some " [抱歉，出现了问题]"⟩, some "stop"⟩]⟩

/-! # Theorems about the claims -/

set_option maxRecDepth 16000

/-! ## Helper lemmas -/

theorem isPrefixOf_append_self (l t : List Char) : l.isPrefixOf (l ++ t) = true := by
  induction l with
  | nil => simp [List.isPrefixOf]
  | cons c cs ih => simp [List.isPrefixOf, ih]

theorem string_toList_append (p rest : String) :
    (p ++ rest).toList = p.toList ++ rest.toList := by
  cases p
  cases rest
  rfl

theorem strStartsWith_append_self (p rest : String) :
    strStartsWith (p ++ rest) p = true := by
  unfold strStartsWith
  rw [string_toList_append]
  exact isPrefixOf_append_self _ _

theorem strDrop_append_eq (p rest : String) :
    strDrop (p ++ rest) p.toList.length = rest := by
  unfold strDrop
  rw [string_toList_append, List.drop_left]
  cases rest
  rfl

/-! ## C1 — SSE reassembly of a line split across two fragments -/

/-- C1: the claim fails on the code. Delivering the SSE line for
`"Hello"` as the two fragments
`"data: {\"choices\":[{\"delta\":{\"content\":\"Hel"` and
`"lo\"}}]}\n\n"` yields NO chunk at all — the first delivery's trailing
half line starts with `data: `, so it is handed to
`process_sse_line_static`, whose malformed-JSON arm answers `Ok(None)`;
the `Err` arm of the decode loop that would have kept the half line for
the next fragment (`// 可能是半行，保留`) is unreachable, and the half
line is discarded. Delivering the whole line at once yields exactly one
normalized chunk with content `"Hello"`. -/
theorem sse_split_fragment_divergence :
    (sse_run false "rid" "m" 0
      [.ok "data: \x7b\"choices\":[\x7b\"delta\":\x7b\"content\":\"Hel",
       .ok "lo\"\x7d\x7d]\x7d\n\n"]).1 = [] ∧
    (sse_run false "rid" "m" 0
      [.ok "data: \x7b\"choices\":[\x7b\"delta\":\x7b\"content\":\"Hello\"\x7d\x7d]\x7d\n\n"]).1 =
      [.ok (chunk_to_string ⟨"chatcmpl-rid", "chat.completion.chunk", 0, "m",
        [⟨0, ⟨none, some "Hello"⟩, none⟩]⟩)] :=
  ⟨rfl, rfl⟩

/-! ## C2 — retry executor invocation count -/

theorem retry_go_always_fails {ε α : Type} (op : Nat → Except ε α) (err : Nat → ε)
    (h : ∀ n, op n = .error (err n)) (fuel : Nat) :
    ∀ calls, retry_go op fuel calls = (.error (err (calls + fuel)), calls + fuel + 1) := by
  induction fuel with
  | zero => intro calls; simp [retry_go, h]
  | succ n ih =>
    intro calls
    simp only [retry_go, h calls]
    rw [ih (calls + 1)]
    have he : calls + 1 + n = calls + (n + 1) := by omega
    rw [he]

/-- C2: an operation failing on every invocation is invoked exactly
`max_retries + 1` times (the second component counts invocations) and
the returned error is the one produced by the final attempt. -/
theorem execute_with_retry_always_fails {ε α : Type} (op : Nat → Except ε α)
    (err : Nat → ε) (max_retries : Nat) (h : ∀ n, op n = .error (err n)) :
    execute_with_retry op max_retries = (.error (err max_retries), max_retries + 1) := by
  unfold execute_with_retry
  rw [retry_go_always_fails op err h max_retries 0]
  simp

/-- Witness for C2 at `max_retries = 3` with `op` failing with its
invocation index: 4 invocations, final error 3. -/
theorem execute_with_retry_always_fails_witness :
    execute_with_retry (fun n => (.error n : Except Nat Unit)) 3 = (.error 3, 4) :=
  execute_with_retry_always_fails (fun n => .error n) (fun n => n) 3 (fun _ => rfl)

/-! ## C5 — `[DONE]` and malformed frames yield no chunk and no error -/

/-- C5: `"data: [DONE]"` maps to `Ok(None)` (no chunk, stream completion),
and any `"data: <payload>"` line whose payload does not parse as an
`OpenAIResponse` also maps to `Ok(None)` — skipped without an error. -/
theorem process_sse_line_done_and_malformed (request_id model_name : String) (created : Int)
    (rest : String)
    (hbad : (openai_response_from_str (rustTrim rest)).isOk = false) :
    process_sse_line_static "data: [DONE]" request_id model_name created = .ok none ∧
    process_sse_line_static ("data: " ++ rest) request_id model_name created = .ok none := by
  constructor
  · rfl
  · unfold process_sse_line_static
    rw [strStartsWith_append_self "data: " rest]
    have hd : strDrop ("data: " ++ rest) 6 = rest := strDrop_append_eq "data: " rest
    simp only [if_true, hd]
    by_cases hdone : rustTrim rest = "[DONE]"
    · simp [hdone]
    · simp only [hdone, if_false, if_neg hdone]
      by_cases hempty : rustTrim rest = ""
      · simp [hempty]
      · simp only [if_neg hempty]
        cases hp : openai_response_from_str (rustTrim rest) with
        | ok v => rw [hp] at hbad; simp [Except.isOk, Except.toBool] at hbad
        | error e => simp

/-- Witness for C5 at the malformed payload `"{malformed"`. -/
theorem process_sse_line_done_and_malformed_witness :
    process_sse_line_static "data: [DONE]" "r" "m" 0 = .ok none ∧
    process_sse_line_static ("data: " ++ "\x7bmalformed") "r" "m" 0 = .ok none :=
  process_sse_line_done_and_malformed "r" "m" 0 "\x7bmalformed" rfl

/-! ## C9 — transport errors degrade to one apology chunk -/

/-- C9: a transport-error fragment makes the decode step emit exactly one
synthetic chunk — the serialized apology chunk, whose only choice carries
the apology text and `finish_reason = "stop"` — instead of propagating
the error; the buffer is untouched. -/
theorem sse_step_transport_error (is_ollama : Bool) (request_id model_name : String)
    (created : Int) (buffer e : String)
    (hsize : utf8Len (chunk_to_string (apology_chunk request_id model_name created)) ≤
      1024 * 1024) :
    sse_step is_ollama request_id model_name created buffer (.error e) =
      ⟨[.ok (chunk_to_string (apology_chunk request_id model_name created))], buffer⟩ ∧
    (apology_chunk request_id model_name created).choices =
      [⟨0, ⟨none, some " [抱歉，出现了问题]"⟩, some "stop"⟩] := by
  constructor
  · unfold sse_step apology_chunk
    have : ¬ (utf8Len (chunk_to_string (apology_chunk request_id model_name created)) >
        1024 * 1024) := by omega
    unfold apology_chunk at this
    simp only [this, if_false, if_neg this]
  · rfl

/-- Witness for C9 at concrete ids and a concrete transport error. -/
theorem sse_step_transport_error_witness :
    sse_step false "r" "m" 0 "buf" (.error "connection reset") =
      ⟨[.ok (chunk_to_string (apology_chunk "r" "m" 0))], "buf"⟩ :=
  (sse_step_transport_error false "r" "m" 0 "buf" "connection reset" (by decide)).1

/-! ## C10 — appropriateness filter for quick responses -/

/-- C10: `is_appropriate_quick_response` returns `false` exactly when the
text exceeds 6 code points or contains more than one character from
`{。, ！, ？, ，}`; ASCII punctuation is never counted, so an all-ASCII
punctuation string of at most 6 code points is accepted. -/
theorem is_appropriate_quick_response_spec (text : String) :
    (is_appropriate_quick_response text = false ↔
      6 < text.toList.length ∨
        1 < (text.toList.filter (fun c => "。！？，".toList.contains c)).length) ∧
    ((∀ c ∈ text.toList, c ∈ ['.', ',', '!', '?']) → text.toList.length ≤ 6 →
      is_appropriate_quick_response text = true) := by
  constructor
  · unfold is_appropriate_quick_response
    by_cases h6 : text.toList.length > 6
    · simp only [if_pos h6]
      exact ⟨fun _ => Or.inl h6, fun _ => trivial⟩
    · simp only [if_neg h6]
      by_cases hp : ((text.toList.filter (fun c => "。！？，".toList.contains c)).length > 1)
      · simp only [if_pos hp]
        exact ⟨fun _ => Or.inr hp, fun _ => trivial⟩
      · simp only [if_neg hp]
        constructor
        · intro h
          exact absurd h (by simp)
        · intro h
          rcases h with h | h
          · exact absurd h h6
          · exact absurd h hp
  · intro hascii h6
    unfold is_appropriate_quick_response
    have hfilter : text.toList.filter (fun c => "。！？，".toList.contains c) = [] := by
      apply List.filter_eq_nil_iff.mpr
      intro c hc
      have := hascii c hc
      fin_cases this <;> decide
    have h6f : ¬ (text.toList.length > 6) := by omega
    simp only [if_neg h6f, hfilter]
    simp

/-- Witness for C10: six ASCII punctuation marks are accepted. -/
theorem is_appropriate_quick_response_spec_witness :
    is_appropriate_quick_response "!?.,!?" = true :=
  (is_appropriate_quick_response_spec "!?.,!?").2 (by decide) (by decide)

/-! ## C4 — bounded-memory eviction in `add_request` -/

/-- C4: after any `add_request` the primary sequence length is at most
`max_entries`; when the push makes it exceed `max_entries`, exactly
`max_entries * 3 / 4` entries remain (the oldest are evicted), and the
count removed never exceeds the sequence length (the Rust
`drain(0..remove_count)` is in bounds), so the call cannot fail. -/
theorem add_request_eviction (s : StatsCollector) (f t : ℚ) (q l : Option ℚ) :
    (s.add_request f t q l).first_response_times.length ≤ s.max_entries ∧
    (s.first_response_times.length + 1 > s.max_entries →
      (s.add_request f t q l).first_response_times.length = s.max_entries * 3 / 4 ∧
      s.max_entries * 3 / 4 ≤ s.first_response_times.length + 1) := by
  simp only [StatsCollector.add_request]
  split
  next h =>
    simp only [List.length_append, List.length_singleton] at h
    simp only [List.length_drop, List.length_append, List.length_singleton]
    constructor
    · omega
    · intro _
      omega
  next h =>
    simp only [List.length_append, List.length_singleton] at h
    simp only [List.length_append, List.length_singleton]
    constructor
    · omega
    · intro hc
      omega

/-- Witness for C4: capacity 4, four prior samples; the fifth push
overflows and eviction leaves exactly `4 * 3 / 4 = 3` entries. -/
theorem add_request_eviction_witness :
    (StatsCollector.add_request ⟨[1, 2, 3, 4], [1, 2, 3, 4], [], [], 4, 4⟩
      1 1 none none).first_response_times.length = 3 :=
  ((add_request_eviction ⟨[1, 2, 3, 4], [1, 2, 3, 4], [], [], 4, 4⟩ 1 1 none none).2
    (by decide)).1

/-! ## C6 — greeting fallback of the quick-response generator -/

theorem isPrefixOf_map (f : Char → Char) : ∀ (p l : List Char),
    p.isPrefixOf l = true → (p.map f).isPrefixOf (l.map f) = true
  | [], _, _ => by simp [List.isPrefixOf]
  | a :: as, [], h => by simp [List.isPrefixOf] at h
  | a :: as, b :: bs, h => by
    simp only [List.isPrefixOf, Bool.and_eq_true, beq_iff_eq, List.map] at h ⊢
    exact ⟨by rw [h.1], isPrefixOf_map f as bs h.2⟩

theorem infixCheck_map (f : Char → Char) : ∀ (h n : List Char),
    infixCheck h n = true → infixCheck (h.map f) (n.map f) = true
  | [], n, hh => by
    simp only [infixCheck, List.isEmpty_iff] at hh
    simp [hh, infixCheck]
  | c :: t, n, hh => by
    simp only [infixCheck, Bool.or_eq_true] at hh
    simp only [List.map, infixCheck, Bool.or_eq_true]
    rcases hh with hp | hi
    · exact Or.inl (by simpa using isPrefixOf_map f n (c :: t) hp)
    · exact Or.inr (infixCheck_map f t n hi)

/-- A needle fixed by char-wise lowercasing survives `to_lowercase`. -/
theorem rustContains_to_lowercase (s n : String)
    (hn : n.toList.map Char.toLower = n.toList)
    (h : rustContains s n = true) :
    rustContains (rust_to_lowercase s) n = true := by
  unfold rustContains rust_to_lowercase
  unfold rustContains at h
  have := infixCheck_map Char.toLower s.toList n.toList h
  rw [hn] at this
  exact this

/-- A message whose lower-cased content contains `你好` is classified as
a greeting (the greeting arm is the first tested). -/
theorem categorize_greeting (m : Message)
    (h : rustContains (rust_to_lowercase m.content) "你好" = true) :
    m.categorize = .Greeting := by
  unfold Message.categorize
  simp [h]

/-- Any index chosen modulo the phrase-set length lands on one of the
category's four phrases, each at most 6 code points and non-empty. -/
theorem get_responses_getD_spec (c : RequestCategory) (n : Nat) :
    c.get_responses.getD (n % c.get_responses.length) "" ∈ c.get_responses ∧
    (c.get_responses.getD (n % c.get_responses.length) "").toList.length ≤ 6 ∧
    c.get_responses.getD (n % c.get_responses.length) "" ≠ "" := by
  have h4 : n % 4 = 0 ∨ n % 4 = 1 ∨ n % 4 = 2 ∨ n % 4 = 3 := by omega
  cases c <;> simp only [RequestCategory.get_responses] <;>
    rcases h4 with h | h | h | h <;>
    simp only [List.length_cons, List.length_nil, h] <;> decide

/-- C6: with the small-model call failing and the last message containing
the greeting keyword `你好`, `get_quick_response` falls back to one of
the four fixed greeting phrases, each at most 6 code points. -/
theorem get_quick_response_greeting_fallback (messages : List Message) (e : String)
    (rng : Nat) (hne : messages ≠ [])
    (hg : rustContains (messages.getLastD ⟨"", ""⟩).content "你好" = true) :
    ∃ r, get_quick_response messages (.error e) rng = .ok r ∧
      r ∈ ["你好！", "嗨！", "您好，", "我在，"] ∧ r.toList.length ≤ 6 := by
  have hni : messages.isEmpty = false := by
    cases messages
    · exact absurd rfl hne
    · rfl
  have hcat : (messages.getLastD ⟨"", ""⟩).categorize = .Greeting :=
    categorize_greeting _ (rustContains_to_lowercase _ _ (by decide) hg)
  obtain ⟨hmem, hlen, _⟩ := get_responses_getD_spec RequestCategory.Greeting rng
  unfold get_quick_response
  rw [hni]
  simp only [Bool.false_eq_true, if_false, hcat]
  exact ⟨_, rfl, hmem, hlen⟩

/-- Witness for C6: last message `你好`, failing small model, first
random index. -/
theorem get_quick_response_greeting_fallback_witness :
    ∃ r, get_quick_response [⟨"user", "你好"⟩] (.error "small model failed") 0 = .ok r ∧
      r ∈ ["你好！", "嗨！", "您好，", "我在，"] ∧ r.toList.length ≤ 6 :=
  get_quick_response_greeting_fallback [⟨"user", "你好"⟩] "small model failed" 0
    (by simp) (by rfl)

/-! ## C7 — item order on the quick path -/

/-- C7 amended: whenever the quick path starts streaming, the emitted
sequence is exactly: one synthetic chunk whose single choice has role
`assistant` and the quick-response text as content, then the decoded
large-model items in upstream delivery order, then the terminal `[DONE]`
sentinel; and the quick text can be empty only in the one case where the
small model succeeded with an (accepted) empty reply — in particular it
is non-empty whenever the small model call failed. -/
theorem stream_quick_response_sequence (request : ChatCompletionRequest)
    (request_id : String) (created : Int) (small : Except String String) (rng : Nat)
    (large_items out : List (Except String String))
    (h : stream_quick_response request request_id created small rng large_items = .ok out) :
    ∃ q, get_quick_response request.messages small rng = .ok q ∧
      out = .ok (chunk_to_string (first_chunk_of request_id created request.model q)) ::
        (large_items ++ [.ok "[DONE]"]) ∧
      (first_chunk_of request_id created request.model q).choices =
        [⟨0, ⟨some "assistant", some q⟩, none⟩] ∧
      (q = "" → small = .ok "") := by
  unfold stream_quick_response at h
  cases hq : get_quick_response request.messages small rng with
  | error e =>
    rw [hq] at h
    exact absurd h (by simp)
  | ok q =>
    rw [hq] at h
    simp only [] at h
    by_cases hsize :
      utf8Len (chunk_to_string (first_chunk_of request_id created request.model q)) >
        1024 * 1024
    · rw [if_pos hsize] at h
      exact absurd h (by simp)
    · rw [if_neg hsize] at h
      simp only [Except.ok.injEq] at h
      refine ⟨q, rfl, h.symm, rfl, ?_⟩
      intro hqe
      subst hqe
      unfold get_quick_response at hq
      by_cases hm : request.messages.isEmpty
      · rw [if_pos hm] at hq
        exact absurd hq (by simp)
      · rw [if_neg hm] at hq
        cases small with
        | error e =>
          simp only [Except.ok.injEq] at hq
          exact absurd hq ((get_responses_getD_spec _ rng).2.2)
        | ok response =>
          simp only [] at hq
          by_cases hacc :
            (response.toList.length ≤ 6 && is_appropriate_quick_response response) = true
          · rw [if_pos hacc] at hq
            simp only [Except.ok.injEq] at hq
            rw [hq]
          · rw [if_neg hacc] at hq
            simp only [Except.ok.injEq] at hq
            exact absurd hq ((get_responses_getD_spec _ rng).2.2)

/-- C7 counterexample: the small model can succeed with the empty reply
(upstream content `""`, trimmed), which `get_quick_response` accepts
(0 ≤ 6 code points, no complex punctuation), so a quick-path request can
emit a first synthetic chunk whose `delta.content` is the empty string —
refuting the claim that the first chunk's content is non-empty for every
quick-path request. -/
theorem stream_quick_response_empty_quick :
    stream_quick_response ⟨"m", [⟨"user", "hi"⟩], none, 1, true, none, false⟩ "r" 0
        (.ok "") 0 [] =
      .ok [.ok (chunk_to_string (first_chunk_of "r" 0 "m" "")), .ok "[DONE]"] ∧
    (first_chunk_of "r" 0 "m" "").choices = [⟨0, ⟨some "assistant", some ""⟩, none⟩] :=
  ⟨rfl, rfl⟩

/-- Witness for C7: a concrete request with one large-model item; the
emitted sequence is the synthetic greeting chunk, the item, `[DONE]`. -/
theorem stream_quick_response_sequence_witness :
    ∃ q, get_quick_response [⟨"user", "hi"⟩] (.error "x") 0 = .ok q ∧
      (Except.ok (chunk_to_string (first_chunk_of "r" 0 "m" "你好！")) ::
          ([.ok "L1"] ++ [.ok "[DONE]"]) : List (Except String String)) =
        .ok (chunk_to_string (first_chunk_of "r" 0 "m" q)) ::
          ([.ok "L1"] ++ [.ok "[DONE]"]) ∧
      (first_chunk_of "r" 0 "m" q).choices = [⟨0, ⟨some "assistant", some q⟩, none⟩] ∧
      (q = "" → (Except.error "x" : Except String String) = .ok "") :=
  stream_quick_response_sequence ⟨"m", [⟨"user", "hi"⟩], none, 1, true, none, false⟩
    "r" 0 (.error "x") 0 [.ok "L1"]
    (.ok (chunk_to_string (first_chunk_of "r" 0 "m" "你好！")) ::
      ([.ok "L1"] ++ [.ok "[DONE]"]))
    (by rfl)

/-! ## C8 — request validation -/

/-- The acceptance condition in the claim's own words, for comparison
with the code: model name non-empty, messages non-empty, every message
with non-blank content and a role in the closed set, `max_tokens` in
`1..=8192` when present, `temperature` in `[0, 2]`. -/
def validate_spec_accepts (r : ChatCompletionRequest) : Bool :=
  (r.model != "") && (!r.messages.isEmpty) &&
    (r.messages.all fun m =>
      (rustTrim m.content != "") &&
        (m.role == "system" || m.role == "user" || m.role == "assistant")) &&
    (match r.max_tokens with
      | none => true
      | some t => decide (1 ≤ t) && decide (t ≤ 8192)) &&
    (decide (0 ≤ r.temperature) && decide (r.temperature ≤ 2))

/-- The amended acceptance condition: as the claim words it, except that
the model name must be non-blank (non-empty after trimming), which is
what `validate()` checks. -/
def validate_amended_accepts (r : ChatCompletionRequest) : Bool :=
  (rustTrim r.model != "") && (!r.messages.isEmpty) &&
    (r.messages.all fun m =>
      (rustTrim m.content != "") &&
        (m.role == "system" || m.role == "user" || m.role == "assistant")) &&
    (match r.max_tokens with
      | none => true
      | some t => decide (1 ≤ t) && decide (t ≤ 8192)) &&
    (decide (0 ≤ r.temperature) && decide (r.temperature ≤ 2))

/-- C8 counterexample: the all-whitespace model name `" "` is non-empty,
and everything else about the request is valid, so the claim's acceptance
condition holds — but `validate()` trims the model name and rejects it,
refuting the claimed equivalence. -/
theorem validate_spec_accepts_counterexample :
    validate_spec_accepts ⟨" ", [⟨"user", "hi"⟩], none, 1, true, none, false⟩ = true ∧
    (ChatCompletionRequest.validate
      ⟨" ", [⟨"user", "hi"⟩], none, 1, true, none, false⟩).isOk = false :=
  ⟨rfl, rfl⟩

theorem role_in_set_trim_ne (m : Message)
    (h : (m.role == "system" || m.role == "user" || m.role == "assistant") = true) :
    rustTrim m.role ≠ "" := by
  simp only [Bool.or_eq_true, beq_iff_eq] at h
  rcases h with (h | h) | h <;> rw [h] <;> decide

/-- The indexed message loop accepts exactly the messages whose content
is non-blank and whose role is in the closed set (the role-blank check is
subsumed), independently of the start index. -/
theorem validate_messages_isOk (msgs : List Message) : ∀ i,
    (validate_messages i msgs).isOk =
      msgs.all fun m =>
        (rustTrim m.content != "") &&
          (m.role == "system" || m.role == "user" || m.role == "assistant") := by
  induction msgs with
  | nil => intro i; rfl
  | cons m rest ih =>
    intro i
    unfold validate_messages
    by_cases h1 : rustTrim m.role = ""
    · have hrs : (m.role == "system" || m.role == "user" || m.role == "assistant") = false := by
        cases hb : (m.role == "system" || m.role == "user" || m.role == "assistant") with
        | false => rfl
        | true => exact absurd h1 (role_in_set_trim_ne m hb)
      simp [h1, hrs, Except.isOk, Except.toBool]
    · by_cases h2 : rustTrim m.content = ""
      · simp [h1, h2, Except.isOk, Except.toBool]
      · by_cases h3 : (["system", "user", "assistant"].contains m.role) = true
        · have h3e : (m.role == "system" || m.role == "user" || m.role == "assistant") = true := by
            simpa [List.contains, List.elem_cons, Bool.or_assoc] using h3
          simp only [if_neg h1, if_neg h2, h3, Bool.not_true, Bool.false_eq_true, if_false,
            List.all_cons, h3e, Bool.and_true]
          rw [ih (i + 1)]
          have h2b : (rustTrim m.content != "") = true := by simpa using h2
          simp [h2b]
        · have h3e : (m.role == "system" || m.role == "user" || m.role == "assistant") = false := by
            cases hb : (m.role == "system" || m.role == "user" || m.role == "assistant") with
            | false => rfl
            | true =>
              exact absurd (by simpa [List.contains, List.elem_cons, Bool.or_assoc] using hb) h3
          have h3f : (["system", "user", "assistant"].contains m.role) = false := by
            simpa using h3
          have hcond : ¬m.role = "system" ∧ ¬m.role = "user" ∧ ¬m.role = "assistant" := by
            have := h3e
            simp only [Bool.or_eq_false_iff, beq_eq_false_iff_ne, ne_eq] at this
            exact ⟨this.1.1, this.1.2, this.2⟩
          simp [h3f, h3e, h1, h2, hcond, Except.isOk, Except.toBool]

/-- `validate()` accepts exactly the amended condition. -/
theorem validate_isOk_eq_amended (r : ChatCompletionRequest) :
    (r.validate).isOk = validate_amended_accepts r := by
  unfold ChatCompletionRequest.validate validate_amended_accepts
  by_cases h1 : rustTrim r.model = ""
  · simp [h1, Except.isOk, Except.toBool]
  · have h1b : (rustTrim r.model != "") = true := by simpa using h1
    by_cases h2 : r.messages.isEmpty
    · simp [h1, h2, Except.isOk, Except.toBool]
    · have h2b : r.messages.isEmpty = false := by simpa using h2
      simp only [if_neg h1, h2b, Bool.false_eq_true, if_false, h1b, Bool.not_false,
        Bool.true_and]
      cases hv : validate_messages 0 r.messages with
      | error e =>
        have := validate_messages_isOk r.messages 0
        rw [hv] at this
        simp only [Except.isOk, Except.toBool] at this
        simp [← this, Except.isOk, Except.toBool]
      | ok u =>
        have := validate_messages_isOk r.messages 0
        rw [hv] at this
        simp only [Except.isOk, Except.toBool] at this
        rw [← this]
        simp only [Bool.true_and]
        cases hmt : r.max_tokens with
        | none =>
          simp only []
          by_cases ht : r.temperature < 0 ∨ r.temperature > 2
          · have hd : (decide (0 ≤ r.temperature) && decide (r.temperature ≤ 2)) = false := by
              rcases ht with ht | ht <;> simp [not_le.mpr ht]
            simp [ht, hd, Except.isOk, Except.toBool]
          · push_neg at ht
            have hd : (decide (0 ≤ r.temperature) && decide (r.temperature ≤ 2)) = true := by
              simp [ht.1, ht.2]
            have htn : ¬(r.temperature < 0 ∨ r.temperature > 2) := by
              push_neg
              exact ht
            simp [htn, hd, Except.isOk, Except.toBool]
        | some t =>
          by_cases hb : t = 0 ∨ t > 8192
          · have hbe : (t = 0 || decide (t > 8192)) = true := by
              rcases hb with hb | hb <;> simp [hb]
            have hdm : (decide (1 ≤ t) && decide (t ≤ 8192)) = false := by
              rcases hb with hb | hb <;> simp [hb]
            simp [hbe, hdm, Except.isOk, Except.toBool]
          · push_neg at hb
            have hbe : (t = 0 || decide (t > 8192)) = false := by
              simp only [Bool.or_eq_false_iff, decide_eq_false_iff_not]
              exact ⟨by simpa using hb.1, by omega⟩
            have hdm : (decide (1 ≤ t) && decide (t ≤ 8192)) = true := by
              have := hb.1
              have := hb.2
              simp only [Bool.and_eq_true, decide_eq_true_eq]
              omega
            simp only [hbe, hdm, Bool.true_and]
            by_cases ht : r.temperature < 0 ∨ r.temperature > 2
            · have hd : (decide (0 ≤ r.temperature) && decide (r.temperature ≤ 2)) = false := by
                rcases ht with ht | ht <;> simp [not_le.mpr ht]
              simp [ht, hd, Except.isOk, Except.toBool]
            · push_neg at ht
              have hd : (decide (0 ≤ r.temperature) && decide (r.temperature ≤ 2)) = true := by
                simp [ht.1, ht.2]
              have htn : ¬(r.temperature < 0 ∨ r.temperature > 2) := by
                push_neg
                exact ht
              simp [htn, hd, Except.isOk, Except.toBool]

/-- C8 amended: `validate()` accepts a request iff the model name is
non-blank, the messages list is non-empty, every message has non-blank
content and a role in `{system, user, assistant}`, `max_tokens` when
present lies in `1..=8192` and `temperature` in `[0, 2]`; and an invalid
request is answered with the 400 structured error before the service —
the only path to an upstream call — is reached. -/
theorem validate_accepts_iff_amended (r : ChatCompletionRequest) :
    ((r.validate).isOk = true ↔ validate_amended_accepts r = true) ∧
    ((r.validate).isOk = false →
      chat_completions_gate r = .rejected 400 "invalid_request_error" "validation_failed") ∧
    ((r.validate).isOk = true → chat_completions_gate r = .forwarded) := by
  refine ⟨by rw [validate_isOk_eq_amended], ?_, ?_⟩
  · intro h
    unfold chat_completions_gate
    cases hv : r.validate with
    | error e => rfl
    | ok u => rw [hv] at h; simp [Except.isOk, Except.toBool] at h
  · intro h
    unfold chat_completions_gate
    cases hv : r.validate with
    | error e => rw [hv] at h; simp [Except.isOk, Except.toBool] at h
    | ok u => rfl

/-- Witness for C8: a valid request is accepted under the amended
condition, and the blank-model request is rejected with the 400 error. -/
theorem validate_accepts_iff_amended_witness :
    validate_amended_accepts ⟨"m", [⟨"user", "hi"⟩], none, 1, true, none, false⟩ = true ∧
    chat_completions_gate ⟨" ", [⟨"user", "hi"⟩], none, 1, true, none, false⟩ =
      .rejected 400 "invalid_request_error" "validation_failed" :=
  ⟨(validate_accepts_iff_amended ⟨"m", [⟨"user", "hi"⟩], none, 1, true, none, false⟩).1.mp
      (by rfl),
    (validate_accepts_iff_amended ⟨" ", [⟨"user", "hi"⟩], none, 1, true, none, false⟩).2.1
      (by rfl)⟩

/-! ## C3 — percentile and average bounds of `calculate_stats` -/

theorem sorted_getD_mono {L : List ℚ} (hs : L.Sorted (· ≤ ·)) {i j : Nat}
    (hij : i ≤ j) (hj : j < L.length) : L.getD i 0 ≤ L.getD j 0 := by
  have hi : i < L.length := lt_of_le_of_lt hij hj
  rw [List.getD_eq_get _ _ hi, List.getD_eq_get _ _ hj]
  rcases Nat.eq_or_lt_of_le hij with h | h
  · subst h
    exact le_refl _
  · exact hs.rel_get_of_lt (by simpa using h)

/-- C3 amended: for every sample list, `calculate_stats` satisfies
`min ≤ p50 ≤ p95 ≤ max`; the infinitely-precise average — the exact
`sum / length` of the sorted finite samples, of which the returned `avg`
is the binary64 rounding — lies in `[min, max]`; and an empty or
all-non-finite input yields the all-zero record. (The rounded `avg`
itself can leave the interval by one final rounding; see the
counterexample below.) -/
theorem calculate_stats_bounds (data : List (Option ℚ)) :
    (calculate_stats data).min ≤ (calculate_stats data).p50 ∧
    (calculate_stats data).p50 ≤ (calculate_stats data).p95 ∧
    (calculate_stats data).p95 ≤ (calculate_stats data).max ∧
    (calculate_stats data).min ≤
      (List.insertionSort (· ≤ ·) (data.filterMap id)).sum /
        ((List.insertionSort (· ≤ ·) (data.filterMap id)).length : ℚ) ∧
    (List.insertionSort (· ≤ ·) (data.filterMap id)).sum /
        ((List.insertionSort (· ≤ ·) (data.filterMap id)).length : ℚ) ≤
      (calculate_stats data).max ∧
    (data.filterMap id = [] → calculate_stats data = ⟨0, 0, 0, 0, 0⟩) := by
  unfold calculate_stats
  by_cases hd : data.isEmpty
  · have hdata : data = [] := by simpa [List.isEmpty_iff] using hd
    subst hdata
    simp [List.insertionSort]
  · simp only [hd, Bool.false_eq_true, if_false]
    by_cases hf : (data.filterMap id).isEmpty
    · have hdataf : data.filterMap id = [] := by simpa [List.isEmpty_iff] using hf
      simp [hf, hdataf, List.insertionSort]
    · simp only [hf, Bool.false_eq_true, if_false]
      have hFne : data.filterMap id ≠ [] := by simpa [List.isEmpty_iff] using hf
      have hs := List.sorted_insertionSort (· ≤ ·) (data.filterMap id)
      set L := List.insertionSort (· ≤ ·) (data.filterMap id) with hLdef
      set n := L.length with hndef
      have hn : 0 < n := by
        rw [hndef, hLdef, List.length_insertionSort]
        exact List.length_pos.mpr hFne
      have hi95lt : (if n = 1 then 0 else (n - 1) * 19 / 20) < n := by
        rcases eq_or_ne n 1 with h | h
        · simp [h]
        · simp only [h, if_false, if_neg h]
          omega
      have hi50le : (if n = 1 then 0 else (n - 1) / 2) ≤
          (if n = 1 then 0 else (n - 1) * 19 / 20) := by
        rcases eq_or_ne n 1 with h | h
        · simp [h]
        · simp only [h, if_false, if_neg h]
          omega
      have hi95le : (if n = 1 then 0 else (n - 1) * 19 / 20) ≤ n - 1 := by
        rcases eq_or_ne n 1 with h | h
        · simp [h]
        · simp only [h, if_false, if_neg h]
          omega
      have hmemb : ∀ x ∈ L, L.getD 0 0 ≤ x ∧ x ≤ L.getD (n - 1) 0 := by
        intro x hx
        obtain ⟨i, hig⟩ := List.mem_iff_get.mp hx
        rw [← hig]
        constructor
        · have h := sorted_getD_mono hs (Nat.zero_le i.1) i.isLt
          rwa [List.getD_eq_get _ _ i.isLt] at h
        · have hle : i.1 ≤ n - 1 := by
            have := i.isLt
            omega
          have h := sorted_getD_mono hs hle (by omega : n - 1 < n)
          rwa [List.getD_eq_get _ _ i.isLt] at h
      have hnq : (0 : ℚ) < (n : ℚ) := by
        exact_mod_cast hn
      refine ⟨?_, ?_, ?_, ?_, ?_, ?_⟩
      · exact sorted_getD_mono hs (Nat.zero_le _) (lt_of_le_of_lt hi50le hi95lt)
      · exact sorted_getD_mono hs hi50le hi95lt
      · exact sorted_getD_mono hs hi95le (by omega)
      · rw [le_div_iff₀ hnq]
        have hlow : ∀ x ∈ L, L.getD 0 0 ≤ x := fun x hx => (hmemb x hx).1
        have hsum := List.card_nsmul_le_sum L _ hlow
        rw [nsmul_eq_mul] at hsum
        calc L.getD 0 0 * (n : ℚ) = (n : ℚ) * L.getD 0 0 := by ring
          _ ≤ L.sum := hsum
      · rw [div_le_iff₀ hnq]
        have hhigh : ∀ x ∈ L, x ≤ L.getD (n - 1) 0 := fun x hx => (hmemb x hx).2
        have hsum := List.sum_le_card_nsmul L _ hhigh
        rw [nsmul_eq_mul] at hsum
        calc L.sum ≤ (n : ℚ) * L.getD (n - 1) 0 := hsum
          _ = L.getD (n - 1) 0 * (n : ℚ) := by ring
      · intro habs
        exact absurd (by simp [habs] : (data.filterMap id).isEmpty = true) (by simpa using hf)

/-- C3 counterexample: for the samples `[0.1, 0.1, 0.1]` — `0.1` being
the binary64 value nearest `1/10`, i.e. `3602879701896397 / 2^55` — the
`f64` sum is `5404319552844596 / 2^54` (`0.30000000000000004…`) and
dividing it by 3 rounds up to `7205759403792795 / 2^56`, the binary64
successor of `0.1`; the returned `avg` therefore exceeds `max`, refuting
the claimed `min ≤ avg ≤ max` at a concrete input. (`mkRat 1 10`
is `1/10`, written so the statement kernel-evaluates.) -/
theorem calculate_stats_avg_above_max :
    (calculate_stats [some (f64round (mkRat 1 10)), some (f64round (mkRat 1 10)),
        some (f64round (mkRat 1 10))]).max = f64round (mkRat 1 10) ∧
    ¬ ((calculate_stats [some (f64round (mkRat 1 10)), some (f64round (mkRat 1 10)),
        some (f64round (mkRat 1 10))]).avg ≤
      (calculate_stats [some (f64round (mkRat 1 10)), some (f64round (mkRat 1 10)),
        some (f64round (mkRat 1 10))]).max) := by
  constructor
  · decide
  · decide

end Loro
